import Mathlib

/-!
Verification of the bike-rental dashboard's data transformation core
(`src/dashboard/dashboard.py`): date filtering, group-by aggregation,
weather categorization and correlation, embedded shallowly over lists.
-/

namespace BikeRental

/-- A pandas timestamp as stored in the `dteday` column: a calendar date
(as an integer day index) together with a time-of-day component.
`pandas .dt.date` projects out the `date` field, ignoring `time`. -/
structure Timestamp where
  date : Int
  time : Nat
deriving DecidableEq, Repr

/-- One row of the hourly dataset, with the columns the dashboard reads:
`dteday`, `workingday`, `weathersit`, `temp`, `atemp`, `hum`, `windspeed`,
`casual`, `registered`, `cnt`.  Normalized reals are embedded as rationals. -/
structure Row where
  dteday : Timestamp
  workingday : Nat
  weathersit : Nat
  temp : ℚ
  atemp : ℚ
  hum : ℚ
  windspeed : ℚ
  casual : Nat
  registered : Nat
  cnt : Nat
deriving DecidableEq, Repr

/-- The four weather-quality categories returned by `categorize`. -/
inductive WeatherCategory where
  | Ideal
  | Good
  | Moderate
  | Poor
deriving DecidableEq, Repr

/-- `categorize(row)` from `dashboard.py` lines 19-27: nested if/elif chain on
`weathersit`, `temp`, `hum`, first match wins, default `Poor`. -/
def categorize (r : Row) : WeatherCategory :=
  if r.weathersit = 1 ∧ r.temp > 0.6 ∧ r.hum < 0.5 then .Ideal
  else if (r.weathersit = 1 ∨ r.weathersit = 2) ∧ r.temp > 0.4 ∧ r.hum < 0.7 then .Good
  else if (r.weathersit = 2 ∨ r.weathersit = 3) ∧ r.temp > 0.2 ∧ r.hum < 0.8 then .Moderate
  else .Poor

/-- Rule 1's guard: the `Ideal` condition. -/
def idealCond (r : Row) : Prop :=
  r.weathersit = 1 ∧ r.temp > 0.6 ∧ r.hum < 0.5

/-- Rule 2's guard: the `Good` condition. -/
def goodCond (r : Row) : Prop :=
  (r.weathersit = 1 ∨ r.weathersit = 2) ∧ r.temp > 0.4 ∧ r.hum < 0.7

/-- Rule 3's guard: the `Moderate` condition. -/
def moderateCond (r : Row) : Prop :=
  (r.weathersit = 2 ∨ r.weathersit = 3) ∧ r.temp > 0.2 ∧ r.hum < 0.8

instance (r : Row) : Decidable (idealCond r) := by unfold idealCond; infer_instance
instance (r : Row) : Decidable (goodCond r) := by unfold goodCond; infer_instance
instance (r : Row) : Decidable (moderateCond r) := by unfold moderateCond; infer_instance

/-- `filtered_df` from `dashboard.py` lines 49-52: keep the rows whose date
portion of `dteday` lies in the closed interval `[s, e]`. -/
def filterByDate (df : List Row) (s e : Int) : List Row :=
  df.filter fun r => s ≤ r.dteday.date ∧ r.dteday.date ≤ e

/-- The grouping key of `daily_data`: `groupby(['dteday', 'workingday'])`. -/
def rowKey (r : Row) : Timestamp × Nat :=
  (r.dteday, r.workingday)

/-- One output row of `daily_data`: the group key plus the summed
`casual`, `registered`, `cnt` columns. -/
structure AggRow where
  dteday : Timestamp
  workingday : Nat
  casual : Nat
  registered : Nat
  cnt : Nat
deriving DecidableEq, Repr

/-- Sum of a numeric column over a row collection. -/
def colSum (df : List Row) (f : Row → Nat) : Nat :=
  (df.map f).sum

/-- `daily_data` from `dashboard.py` lines 63-67:
`filtered_df.groupby(['dteday', 'workingday']).agg({'casual': 'sum',
'registered': 'sum', 'cnt': 'sum'}).reset_index()` — one aggregate row per
distinct `(dteday, workingday)` key, columns combined by sum. -/
def daily_data (df : List Row) : List AggRow :=
  ((df.map rowKey).dedup).map fun k =>
    { dteday := k.1
      workingday := k.2
      casual := colSum (df.filter fun r => rowKey r = k) Row.casual
      registered := colSum (df.filter fun r => rowKey r = k) Row.registered
      cnt := colSum (df.filter fun r => rowKey r = k) Row.cnt }

/-- Mean of a column over a row collection (for the empty collection this is
`0/0 = 0`; the correlation definitions guard that case by the variance test). -/
def cmean (df : List Row) (f : Row → ℚ) : ℚ :=
  (df.map f).sum / df.length

/-- Unnormalized covariance of two columns over a row collection: the sum of
products of centered values.  Pearson correlation is the ratio
`ccov / sqrt (cvar * cvar)`, in which pandas' `1/(n-1)` normalization cancels,
so the unnormalized sums give the same matrix as `DataFrame.corr()`. -/
def ccov (df : List Row) (f g : Row → ℚ) : ℚ :=
  (df.map fun r => (f r - cmean df f) * (g r - cmean df g)).sum

/-- Unnormalized variance of a column: `ccov` of the column with itself. -/
def cvar (df : List Row) (f : Row → ℚ) : ℚ :=
  ccov df f f

/-- Pearson correlation of two columns, as computed by `DataFrame.corr()`:
`none` models the NaN that pandas produces when either column has zero
variance (this includes the empty and single-row cases), otherwise the
correlation coefficient. -/
noncomputable def corr (df : List Row) (f g : Row → ℚ) : Option ℝ :=
  if cvar df f = 0 ∨ cvar df g = 0 then none
  else some ((ccov df f g : ℝ) / Real.sqrt ((cvar df f : ℝ) * (cvar df g : ℝ)))

/-- The fixed ordered column list `weather_vars = ['temp', 'atemp', 'hum',
'windspeed', 'cnt']` from `dashboard.py` line 200. -/
def weatherVars : Fin 5 → (Row → ℚ) :=
  ![Row.temp, Row.atemp, Row.hum, Row.windspeed, fun r => (r.cnt : ℚ)]

/-- `corr_matrix = filtered_df[weather_vars].corr()` from `dashboard.py`
line 201: the square matrix of pairwise Pearson correlations over the five
columns of `weatherVars`, indexed by that fixed list. -/
noncomputable def corrMatrix (df : List Row) : Fin 5 → Fin 5 → Option ℝ :=
  fun i j => corr df (weatherVars i) (weatherVars j)

/-- A column is constant over a row collection. -/
def constCol (df : List Row) (f : Row → ℚ) : Prop :=
  ∀ a ∈ df, ∀ b ∈ df, f a = f b

/-- Rounding to 2 decimal places. -/
def round2 (q : ℚ) : ℚ :=
  (round (q * 100) : ℤ) / 100

/-- Mean of a rational column over a row collection, as a rational. -/
def natColMean (df : List Row) (f : Row → Nat) : ℚ :=
  ((df.map fun r => (f r : ℚ)).sum) / df.length

/-- Modelled from the spec: the weather-average aggregation — "one Aggregate
Row per distinct key value, with the ridership columns combined by mean
rounded to 2 decimal places (for the weather-average view)".  This view
exists in other variants of the pipeline; in `src/dashboard/dashboard.py`
the weather tab feeds raw rows to a box plot instead, so the aggregation is
not present under `src/`.  Keys are the distinct `weathersit` values. -/
def weatherAvg (df : List Row) : List (Nat × ℚ × ℚ × ℚ) :=
  ((df.map Row.weathersit).dedup).map fun k =>
    (k,
     round2 (natColMean (df.filter fun r => r.weathersit = k) Row.casual),
     round2 (natColMean (df.filter fun r => r.weathersit = k) Row.registered),
     round2 (natColMean (df.filter fun r => r.weathersit = k) Row.cnt))

/-- The declared display order
`category_orders={"weather_category": ["Ideal", "Good", "Moderate", "Poor"]}`
from `dashboard.py` line 221. -/
def categoryOrders : List WeatherCategory :=
  [.Ideal, .Good, .Moderate, .Poor]

/-- Modelled from the spec: the per-category breakdown as presented — "output
category set must preserve the declared display order {Ideal, Good, Moderate,
Poor} regardless of which categories are actually present, so empty categories
still appear in visual comparisons with zero-filled statistics".  The
rendering that realizes this lives in the plotting layer, not under `src/`;
the declared order list (`categoryOrders`) and the classifier are from the
source.  One output row per declared category, in declared order, carrying
the summed ridership statistics of the rows classified into it. -/
def displayByCategory (df : List Row) : List (WeatherCategory × Nat × Nat × Nat) :=
  categoryOrders.map fun c =>
    (c,
     colSum (df.filter fun r => categorize r = c) Row.casual,
     colSum (df.filter fun r => categorize r = c) Row.registered,
     colSum (df.filter fun r => categorize r = c) Row.cnt)

/-- A concrete row with the given weather fields, used by witnesses. -/
def mkRow (ws : Nat) (t h : ℚ) : Row :=
  { dteday := ⟨0, 0⟩, workingday := 0, weathersit := ws, temp := t, atemp := 0,
    hum := h, windspeed := 0, casual := 0, registered := 0, cnt := 0 }

/-- C1: the weather classifier is a priority chain evaluated top to bottom with
first-match-wins semantics: it returns `Ideal` iff rule 1's guard holds;
otherwise `Good` iff rule 2's guard holds; otherwise `Moderate` iff rule 3's
guard holds; otherwise `Poor`. -/
theorem categorize_priority_chain (r : Row) :
    (categorize r = .Ideal ↔ idealCond r) ∧
    (categorize r = .Good ↔ ¬ idealCond r ∧ goodCond r) ∧
    (categorize r = .Moderate ↔ ¬ idealCond r ∧ ¬ goodCond r ∧ moderateCond r) ∧
    (categorize r = .Poor ↔ ¬ idealCond r ∧ ¬ goodCond r ∧ ¬ moderateCond r) := by
  unfold categorize idealCond goodCond moderateCond
  split_ifs with h1 h2 h3 <;> simp_all

/-- Witness for C1: the priority chain applied to a concrete row — a row with
`weathersit = 2`, `temp = 0.5`, `hum = 0.6` fails rule 1 and passes rule 2,
so it classifies as `Good`. -/
theorem categorize_priority_chain_witness :
    categorize (mkRow 2 0.5 0.6) = .Good :=
  (categorize_priority_chain (mkRow 2 0.5 0.6)).2.1.mpr
    (by norm_num [idealCond, goodCond, mkRow])

/-- C4: the weather classifier is deterministic (it is a function) and total:
every row maps to one of the four categories; moreover
`(weathersit, temp, hum) = (1, 0.7, 0.3)` maps to `Ideal`, `(3, 0.7, 0.3)`
maps to `Moderate`, and `(2, 0.5, 0.6)` maps to `Good`. -/
theorem categorize_total_and_examples :
    (∀ r : Row, categorize r = .Ideal ∨ categorize r = .Good ∨
      categorize r = .Moderate ∨ categorize r = .Poor) ∧
    categorize (mkRow 1 0.7 0.3) = .Ideal ∧
    categorize (mkRow 3 0.7 0.3) = .Moderate ∧
    categorize (mkRow 2 0.5 0.6) = .Good := by
  refine ⟨fun r => ?_, by norm_num [categorize, mkRow], by norm_num [categorize, mkRow],
    by norm_num [categorize, mkRow]⟩
  unfold categorize
  split
  · exact Or.inl rfl
  · split
    · exact Or.inr (Or.inl rfl)
    · split
      · exact Or.inr (Or.inr (Or.inl rfl))
      · exact Or.inr (Or.inr (Or.inr rfl))

/-- C10: a row with `weathersit = 4` classifies as `Poor` regardless of
temperature and humidity (no rule's set contains 4), and a row with
`weathersit = 1` never classifies as `Moderate` (rule 3's set `{2, 3}`
excludes 1), its result being one of `Ideal`, `Good`, `Poor`. -/
theorem categorize_weathersit_edge_cases :
    (∀ r : Row, r.weathersit = 4 → categorize r = .Poor) ∧
    (∀ r : Row, r.weathersit = 1 → categorize r ≠ .Moderate ∧
      (categorize r = .Ideal ∨ categorize r = .Good ∨ categorize r = .Poor)) := by
  constructor
  · intro r h4
    unfold categorize
    split_ifs with ha hb hc <;> simp_all
  · intro r h1
    unfold categorize
    split_ifs with ha hb hc <;> simp_all

/-- Witness for C10: a concrete `weathersit = 4` row is `Poor`, and a concrete
`weathersit = 1` row is not `Moderate`. -/
theorem categorize_weathersit_edge_cases_witness :
    categorize (mkRow 4 0.7 0.3) = .Poor ∧ categorize (mkRow 1 0.9 0.9) ≠ .Moderate :=
  ⟨categorize_weathersit_edge_cases.1 (mkRow 4 0.7 0.3) rfl,
   (categorize_weathersit_edge_cases.2 (mkRow 1 0.9 0.9) rfl).1⟩

/-- C2: for every dataset and date interval `[s, e]` with `s ≤ e`, every row of
the filtered result has its date portion in `[s, e]` (time-of-day ignored),
and the result is a sublist of the original rows — a subset with no row's
data altered.  The embedding is a pure function, reflecting that pandas
boolean-mask indexing builds a new frame and leaves the original unchanged. -/
theorem filterByDate_sound (df : List Row) (s e : Int) (_hse : s ≤ e) :
    (∀ r ∈ filterByDate df s e, s ≤ r.dteday.date ∧ r.dteday.date ≤ e) ∧
    (filterByDate df s e).Sublist df := by
  refine ⟨fun r hr => ?_, List.filter_sublist df⟩
  have h := (List.mem_filter.mp hr).2
  simpa using h

/-- Witness for C2: the filter applied to a concrete two-row dataset over the
interval `[0, 1]`. -/
theorem filterByDate_sound_witness :
    (0 : Int) ≤ 1 ∧
    ((∀ r ∈ filterByDate [mkRow 1 0.7 0.3, mkRow 2 0.5 0.6] 0 1,
        0 ≤ r.dteday.date ∧ r.dteday.date ≤ 1) ∧
      (filterByDate [mkRow 1 0.7 0.3, mkRow 2 0.5 0.6] 0 1).Sublist
        [mkRow 1 0.7 0.3, mkRow 2 0.5 0.6]) :=
  ⟨by decide, filterByDate_sound [mkRow 1 0.7 0.3, mkRow 2 0.5 0.6] 0 1 (by decide)⟩

/-- C6: for every dataset, an inverted interval (`start > end`) filters to the
empty result; the filter is a total function, so no interval — inverted or
out of range — raises an error. -/
theorem filterByDate_inverted (df : List Row) (s e : Int) (h : e < s) :
    filterByDate df s e = [] := by
  unfold filterByDate
  rw [List.filter_eq_nil_iff]
  intro r _
  simp only [decide_eq_true_eq, not_and]
  omega

/-- Witness for C6: the inverted interval `[1, 0]` on a concrete nonempty
dataset yields the empty result. -/
theorem filterByDate_inverted_witness :
    (0 : Int) < 1 ∧ filterByDate [mkRow 1 0.7 0.3] 1 0 = [] :=
  ⟨by decide, filterByDate_inverted [mkRow 1 0.7 0.3] 1 0 (by decide)⟩

/-- Summing an indicator over a duplicate-free key list that contains the key
picks out the single value. -/
theorem sum_map_ite_single {κ : Type} [DecidableEq κ] (keys : List κ) (k0 : κ) (v : ℕ)
    (hnd : keys.Nodup) (hk : k0 ∈ keys) :
    (keys.map fun k => if k0 = k then v else 0).sum = v := by
  induction keys with
  | nil => simp at hk
  | cons a as ih =>
    rcases List.nodup_cons.mp hnd with ⟨hna, hnd2⟩
    rcases List.mem_cons.mp hk with h | h
    · subst h
      rw [List.map_cons, List.sum_cons, if_pos rfl]
      have hz : (as.map fun k => if k0 = k then v else 0).sum = 0 := by
        refine List.sum_eq_zero fun x hx => ?_
        rcases List.mem_map.mp hx with ⟨k, hkmem, rfl⟩
        refine if_neg ?_
        rintro rfl
        exact hna hkmem
      rw [hz]
      omega
    · have hne : k0 ≠ a := fun he => hna (he ▸ h)
      simp only [List.map_cons, List.sum_cons, if_neg hne, ih hnd2 h]
      omega

/-- Group-by partition property: summing the per-key filtered sums over a
duplicate-free key list covering every element reproduces the grand total. -/
theorem sum_filter_key {α κ : Type} [DecidableEq κ] (keys : List κ) (key : α → κ)
    (f : α → ℕ) (l : List α) (hnd : keys.Nodup) (hcov : ∀ x ∈ l, key x ∈ keys) :
    (keys.map fun k => ((l.filter fun x => key x = k).map f).sum).sum
      = (l.map f).sum := by
  induction l with
  | nil => simp
  | cons x xs ih =>
    have hx : key x ∈ keys := hcov x (List.mem_cons_self x xs)
    have hcov2 : ∀ y ∈ xs, key y ∈ keys := fun y hy => hcov y (List.mem_cons_of_mem x hy)
    have hsplit : ∀ k : κ, (((x :: xs).filter fun y => key y = k).map f).sum
        = (if key x = k then f x else 0) + ((xs.filter fun y => key y = k).map f).sum := by
      intro k
      by_cases h : key x = k <;> simp [List.filter_cons, h]
    have hcongr : (keys.map fun k => (((x :: xs).filter fun y => key y = k).map f).sum)
        = keys.map fun k => (if key x = k then f x else 0)
            + ((xs.filter fun y => key y = k).map f).sum :=
      List.map_congr_left fun k _ => hsplit k
    rw [hcongr, List.sum_map_add, sum_map_ite_single keys (key x) (f x) hnd hx, ih hcov2]
    simp

/-- Splitting a sum by a Boolean predicate on the elements. -/
theorem sum_filter_split {α : Type} (l : List α) (p : α → Bool) (g : α → ℕ) :
    ((l.filter p).map g).sum + ((l.filter fun a => ! p a).map g).sum
      = (l.map g).sum := by
  induction l with
  | nil => simp
  | cons x xs ih =>
    cases h : p x <;> simp [List.filter_cons, h] <;> omega

/-- The per-key sums of `daily_data` reproduce the grand total of any of the
summed columns. -/
theorem daily_col_total (df : List Row) (f : Row → Nat) :
    (((df.map rowKey).dedup).map fun k =>
        colSum (df.filter fun r => rowKey r = k) f).sum = colSum df f := by
  refine sum_filter_key ((df.map rowKey).dedup) rowKey f df (List.nodup_dedup _) ?_
  intro x hx
  exact List.mem_dedup.mpr (List.mem_map_of_mem rowKey hx)

/-- Every aggregate row of `daily_data` takes its work-day flag from some
source row. -/
theorem daily_workingday_from_source (df : List Row) :
    ∀ a ∈ daily_data df, ∃ r ∈ df, a.workingday = r.workingday := by
  intro a ha
  rcases List.mem_map.mp ha with ⟨k, hk, rfl⟩
  rcases List.mem_map.mp (List.mem_dedup.mp hk) with ⟨r, hr, rfl⟩
  exact ⟨r, hr, rfl⟩

/-- C3: with every row's work-day flag in `{0, 1}`, the `cnt` sums of the two
work-day series of `daily_data` add up to the grand `cnt` total of the unsplit
collection (and likewise for `casual` and `registered`); and whenever every
row satisfies `cnt = casual + registered`, the column sums satisfy
`sum casual + sum registered = sum cnt`. -/
theorem daily_data_partition_totals (df : List Row)
    (hwd : ∀ r ∈ df, r.workingday = 0 ∨ r.workingday = 1)
    (hinv : ∀ r ∈ df, r.cnt = r.casual + r.registered) :
    ((((daily_data df).filter fun a => a.workingday = 1).map AggRow.cnt).sum
        + (((daily_data df).filter fun a => a.workingday = 0).map AggRow.cnt).sum
        = colSum df Row.cnt) ∧
    ((((daily_data df).filter fun a => a.workingday = 1).map AggRow.casual).sum
        + (((daily_data df).filter fun a => a.workingday = 0).map AggRow.casual).sum
        = colSum df Row.casual) ∧
    ((((daily_data df).filter fun a => a.workingday = 1).map AggRow.registered).sum
        + (((daily_data df).filter fun a => a.workingday = 0).map AggRow.registered).sum
        = colSum df Row.registered) ∧
    colSum df Row.casual + colSum df Row.registered = colSum df Row.cnt := by
  have hflag : ∀ a ∈ daily_data df, (a.workingday = 0 ↔ ¬ a.workingday = 1) := by
    intro a ha
    rcases daily_workingday_from_source df a ha with ⟨r, hr, he⟩
    rcases hwd r hr with h0 | h1 <;> rw [he] <;> omega
  have hsplitcol : ∀ g : AggRow → Nat,
      (((daily_data df).filter fun a => a.workingday = 1).map g).sum
        + (((daily_data df).filter fun a => a.workingday = 0).map g).sum
        = ((daily_data df).map g).sum := by
    intro g
    have hc : (daily_data df).filter (fun a => decide (a.workingday = 0))
        = (daily_data df).filter fun a => ! decide (a.workingday = 1) := by
      refine List.filter_congr fun a ha => ?_
      rw [← decide_not, decide_eq_decide]
      exact hflag a ha
    rw [show ((daily_data df).filter fun a => a.workingday = 0)
        = (daily_data df).filter fun a => ! decide (a.workingday = 1) from hc]
    exact sum_filter_split (daily_data df) (fun a => decide (a.workingday = 1)) g
  have hcol : ∀ f : Row → Nat, ∀ g : AggRow → Nat,
      (∀ k : Timestamp × Nat,
        g { dteday := k.1, workingday := k.2,
            casual := colSum (df.filter fun r => rowKey r = k) Row.casual,
            registered := colSum (df.filter fun r => rowKey r = k) Row.registered,
            cnt := colSum (df.filter fun r => rowKey r = k) Row.cnt }
          = colSum (df.filter fun r => rowKey r = k) f) →
      ((daily_data df).map g).sum = colSum df f := by
    intro f g hg
    have : (daily_data df).map g
        = ((df.map rowKey).dedup).map fun k => colSum (df.filter fun r => rowKey r = k) f := by
      simp only [daily_data, List.map_map]
      exact List.map_congr_left fun k _ => hg k
    rw [this, daily_col_total df f]
  refine ⟨?_, ?_, ?_, ?_⟩
  · rw [hsplitcol AggRow.cnt, hcol Row.cnt AggRow.cnt fun k => rfl]
  · rw [hsplitcol AggRow.casual, hcol Row.casual AggRow.casual fun k => rfl]
  · rw [hsplitcol AggRow.registered, hcol Row.registered AggRow.registered fun k => rfl]
  · have : df.map Row.cnt = df.map fun r => r.casual + r.registered :=
      List.map_congr_left fun r hr => hinv r hr
    unfold colSum
    rw [this, List.sum_map_add]

/-- A mapped list sum as a sum over the index type. -/
theorem sum_map_eq_fin_sum {α : Type} (l : List α) (h : α → ℚ) :
    (l.map h).sum = ∑ i : Fin l.length, h (l.get i) := by
  rw [← List.ofFn_get_eq_map, List.sum_ofFn]

/-- Cauchy-Schwarz for the centered column sums: the squared covariance is
bounded by the product of the variances. -/
theorem ccov_sq_le_cvar_mul (df : List Row) (f g : Row → ℚ) :
    ccov df f g ^ 2 ≤ cvar df f * cvar df g := by
  unfold cvar ccov
  rw [sum_map_eq_fin_sum, sum_map_eq_fin_sum, sum_map_eq_fin_sum]
  simp_rw [← sq]
  exact Finset.sum_mul_sq_le_sq_mul_sq Finset.univ
    (fun i => f (df.get i) - cmean df f) (fun i => g (df.get i) - cmean df g)

/-- Variances are nonnegative. -/
theorem cvar_nonneg (df : List Row) (f : Row → ℚ) : 0 ≤ cvar df f := by
  unfold cvar ccov
  refine List.sum_nonneg fun x hx => ?_
  rcases List.mem_map.mp hx with ⟨r, _, rfl⟩
  exact mul_self_nonneg _

/-- A list of nonnegative rationals summing to zero is all zeros. -/
theorem list_nonneg_sum_zero {l : List ℚ} (h0 : ∀ x ∈ l, 0 ≤ x) (hs : l.sum = 0) :
    ∀ x ∈ l, x = 0 := by
  induction l with
  | nil => simp
  | cons a as ih =>
    have ha : 0 ≤ a := h0 a (List.mem_cons_self a as)
    have has : 0 ≤ as.sum :=
      List.sum_nonneg fun x hx => h0 x (List.mem_cons_of_mem a hx)
    rw [List.sum_cons] at hs
    intro x hx
    rcases List.mem_cons.mp hx with rfl | hx2
    · linarith
    · exact ih (fun y hy => h0 y (List.mem_cons_of_mem a hy)) (by linarith) x hx2

/-- A zero-variance column is constant over the collection. -/
theorem cvar_zero_const (df : List Row) (f : Row → ℚ) (h : cvar df f = 0) :
    constCol df f := by
  have hz : ∀ r ∈ df, f r = cmean df f := by
    intro r hr
    have hmem : (f r - cmean df f) * (f r - cmean df f)
        ∈ df.map fun r => (f r - cmean df f) * (f r - cmean df f) :=
      List.mem_map_of_mem _ hr
    have := list_nonneg_sum_zero (l := df.map fun r => (f r - cmean df f) * (f r - cmean df f))
      (fun x hx => by
        rcases List.mem_map.mp hx with ⟨r2, _, rfl⟩
        exact mul_self_nonneg _) h _ hmem
    have h0 : f r - cmean df f = 0 := mul_self_eq_zero.mp this
    linarith
  intro a ha b hb
  rw [hz a ha, hz b hb]

/-- A single-row collection has zero variance in every column. -/
theorem cvar_single (r : Row) (f : Row → ℚ) : cvar [r] f = 0 := by
  simp [cvar, ccov, cmean]

/-- Covariance is symmetric. -/
theorem ccov_comm (df : List Row) (f g : Row → ℚ) : ccov df f g = ccov df g f := by
  unfold ccov
  exact congrArg List.sum (List.map_congr_left fun r _ => mul_comm _ _)

/-- C5: the correlation matrix over the fixed five-column list is square (it is
indexed by `Fin 5 × Fin 5`) and symmetric, every defined entry lies in
`[-1, 1]`, and every diagonal entry whose column has nonzero variance over the
collection equals `1`. -/
theorem corrMatrix_props (df : List Row) :
    (∀ i j, corrMatrix df i j = corrMatrix df j i) ∧
    (∀ i j, ∀ x : ℝ, corrMatrix df i j = some x → -1 ≤ x ∧ x ≤ 1) ∧
    (∀ i, cvar df (weatherVars i) ≠ 0 → corrMatrix df i i = some 1) := by
  refine ⟨?_, ?_, ?_⟩
  · intro i j
    unfold corrMatrix corr
    by_cases h1 : cvar df (weatherVars i) = 0 <;>
      by_cases h2 : cvar df (weatherVars j) = 0 <;>
        simp [h1, h2, ccov_comm df (weatherVars i) (weatherVars j), mul_comm]
  · intro i j x hx
    unfold corrMatrix corr at hx
    by_cases hc : cvar df (weatherVars i) = 0 ∨ cvar df (weatherVars j) = 0
    · rw [if_pos hc] at hx
      exact absurd hx (by simp)
    · rw [if_neg hc] at hx
      push_neg at hc
      have hF : (0 : ℝ) < (cvar df (weatherVars i) : ℝ) := by
        have := cvar_nonneg df (weatherVars i)
        have h1 := hc.1
        rw [Rat.cast_pos]
        rcases lt_or_eq_of_le this with h | h
        · exact h
        · exact absurd h.symm h1
      have hG : (0 : ℝ) < (cvar df (weatherVars j) : ℝ) := by
        have := cvar_nonneg df (weatherVars j)
        have h2 := hc.2
        rw [Rat.cast_pos]
        rcases lt_or_eq_of_le this with h | h
        · exact h
        · exact absurd h.symm h2
      have hCS : ((ccov df (weatherVars i) (weatherVars j) : ℝ)) ^ 2
          ≤ (cvar df (weatherVars i) : ℝ) * (cvar df (weatherVars j) : ℝ) := by
        have := ccov_sq_le_cvar_mul df (weatherVars i) (weatherVars j)
        have hcast := Rat.cast_le (K := ℝ).mpr this
        push_cast at hcast
        exact hcast
      have hsq : (0 : ℝ) < Real.sqrt ((cvar df (weatherVars i) : ℝ)
          * (cvar df (weatherVars j) : ℝ)) :=
        Real.sqrt_pos.mpr (mul_pos hF hG)
      have habs : |(ccov df (weatherVars i) (weatherVars j) : ℝ)|
          ≤ Real.sqrt ((cvar df (weatherVars i) : ℝ) * (cvar df (weatherVars j) : ℝ)) := by
        rw [← Real.sqrt_sq_eq_abs]
        exact Real.sqrt_le_sqrt hCS
      have hxval : x = (ccov df (weatherVars i) (weatherVars j) : ℝ)
          / Real.sqrt ((cvar df (weatherVars i) : ℝ) * (cvar df (weatherVars j) : ℝ)) := by
        exact (Option.some_injective _ hx).symm
      have hdiv : |x| ≤ 1 := by
        rw [hxval, abs_div, abs_of_pos hsq]
        rw [div_le_one hsq]
        exact habs
      exact abs_le.mp hdiv
  · intro i hv
    unfold corrMatrix corr
    rw [if_neg (by push_neg; exact ⟨hv, hv⟩)]
    have hF : (0 : ℝ) < (cvar df (weatherVars i) : ℝ) := by
      have := cvar_nonneg df (weatherVars i)
      rw [Rat.cast_pos]
      rcases lt_or_eq_of_le this with h | h
      · exact h
      · exact absurd h.symm hv
    have : ccov df (weatherVars i) (weatherVars i) = cvar df (weatherVars i) := rfl
    rw [this, Real.sqrt_mul_self hF.le, div_self (ne_of_gt hF)]

/-- C7: a `none` (NaN) entry of the correlation matrix arises only when one of
the two columns of that pair is constant over the collection, and a single-row
collection yields the degenerate all-`none` matrix; the engine is a total
function and never faults. -/
theorem corrMatrix_nan_only_const (df : List Row) :
    (∀ i j, corrMatrix df i j = none →
      constCol df (weatherVars i) ∨ constCol df (weatherVars j)) ∧
    (∀ r : Row, ∀ i j : Fin 5, corrMatrix [r] i j = none) := by
  constructor
  · intro i j h
    unfold corrMatrix corr at h
    by_cases hc : cvar df (weatherVars i) = 0 ∨ cvar df (weatherVars j) = 0
    · rcases hc with h1 | h2
      · exact Or.inl (cvar_zero_const df (weatherVars i) h1)
      · exact Or.inr (cvar_zero_const df (weatherVars j) h2)
    · rw [if_neg hc] at h
      exact absurd h (by simp)
  · intro r i j
    unfold corrMatrix corr
    rw [if_pos (Or.inl (cvar_single r (weatherVars i)))]

/-- A concrete row with the given date, work-day flag and rider counts, used
by witnesses. -/
def mkDay (d : Int) (wd c g : Nat) : Row :=
  { dteday := ⟨d, 0⟩, workingday := wd, weathersit := 1, temp := 0, atemp := 0,
    hum := 0, windspeed := 0, casual := c, registered := g, cnt := c + g }

/-- A concrete row with the given temperature, used by witnesses. -/
def mkTemp (t : ℚ) : Row :=
  { dteday := ⟨0, 0⟩, workingday := 0, weathersit := 1, temp := t, atemp := 0,
    hum := 0, windspeed := 0, casual := 0, registered := 0, cnt := 0 }

/-- The concrete two-row dataset used by the aggregation witness. -/
def wdf : List Row :=
  [mkDay 0 1 3 5, mkDay 1 0 2 4]

/-- Witness for C3: the aggregation identities applied to a concrete two-row
dataset with one working and one non-working day. -/
theorem daily_data_partition_totals_witness :
    (∀ r ∈ wdf, r.workingday = 0 ∨ r.workingday = 1) ∧
    (∀ r ∈ wdf, r.cnt = r.casual + r.registered) ∧
    (((daily_data wdf).filter fun a => a.workingday = 1).map AggRow.cnt).sum
        + (((daily_data wdf).filter fun a => a.workingday = 0).map AggRow.cnt).sum
        = colSum wdf Row.cnt ∧
    colSum wdf Row.casual + colSum wdf Row.registered = colSum wdf Row.cnt :=
  ⟨by decide, by decide,
   (daily_data_partition_totals wdf (by decide) (by decide)).1,
   (daily_data_partition_totals wdf (by decide) (by decide)).2.2.2⟩

/-- Witness for C5: on a concrete two-row dataset whose temperature column has
nonzero variance, the diagonal entry for that column is `1`. -/
theorem corrMatrix_props_witness :
    cvar [mkTemp 0, mkTemp 1] (weatherVars 0) ≠ 0 ∧
    corrMatrix [mkTemp 0, mkTemp 1] 0 0 = some 1 :=
  ⟨by norm_num [cvar, ccov, cmean, weatherVars, mkTemp],
   (corrMatrix_props [mkTemp 0, mkTemp 1]).2.2 0
     (by norm_num [cvar, ccov, cmean, weatherVars, mkTemp])⟩

/-- Witness for C7: the single-row collection gives a `none` entry, and that
entry indeed comes from a constant column. -/
theorem corrMatrix_nan_only_const_witness :
    corrMatrix [mkTemp 0] 0 0 = none ∧
    (constCol [mkTemp 0] (weatherVars 0) ∨ constCol [mkTemp 0] (weatherVars 0)) :=
  ⟨(corrMatrix_nan_only_const [mkTemp 0]).2 (mkTemp 0) 0 0,
   (corrMatrix_nan_only_const [mkTemp 0]).1 0 0
     ((corrMatrix_nan_only_const [mkTemp 0]).2 (mkTemp 0) 0 0)⟩

/-- C8: modelled from the spec — the weather-average view returns exactly one
aggregate row per distinct weather key (the output keys are duplicate-free and
are exactly the keys occurring in the input), and each output row carries the
ridership columns combined by mean rounded to 2 decimal places. -/
theorem weatherAvg_spec (df : List Row) :
    ((weatherAvg df).map Prod.fst).Nodup ∧
    (∀ k : Nat, k ∈ (weatherAvg df).map Prod.fst ↔ k ∈ df.map Row.weathersit) ∧
    (∀ k ∈ df.map Row.weathersit,
      (k, round2 (natColMean (df.filter fun r => r.weathersit = k) Row.casual),
       round2 (natColMean (df.filter fun r => r.weathersit = k) Row.registered),
       round2 (natColMean (df.filter fun r => r.weathersit = k) Row.cnt))
        ∈ weatherAvg df) ∧
    (∀ x ∈ weatherAvg df,
      x.2.1 = round2 (natColMean (df.filter fun r => r.weathersit = x.1) Row.casual) ∧
      x.2.2.1 = round2 (natColMean (df.filter fun r => r.weathersit = x.1) Row.registered) ∧
      x.2.2.2 = round2 (natColMean (df.filter fun r => r.weathersit = x.1) Row.cnt)) := by
  have hfst : (weatherAvg df).map Prod.fst = (df.map Row.weathersit).dedup := by
    unfold weatherAvg
    rw [List.map_map]
    exact List.map_id _
  refine ⟨?_, ?_, ?_, ?_⟩
  · rw [hfst]; exact List.nodup_dedup _
  · intro k
    rw [hfst, List.mem_dedup]
  · intro k hk
    exact List.mem_map.mpr ⟨k, List.mem_dedup.mpr hk, rfl⟩
  · intro x hx
    rcases List.mem_map.mp hx with ⟨k, _, rfl⟩
    exact ⟨rfl, rfl, rfl⟩

/-- Witness for C8: a concrete one-row dataset with weather key `1` produces
the aggregate row for that key, carrying the rounded-mean columns. -/
theorem weatherAvg_spec_witness :
    ((1 : Nat) ∈ [mkDay 0 1 3 5].map Row.weathersit) ∧
    ((1, round2 (natColMean ([mkDay 0 1 3 5].filter fun r => r.weathersit = 1) Row.casual),
      round2 (natColMean ([mkDay 0 1 3 5].filter fun r => r.weathersit = 1) Row.registered),
      round2 (natColMean ([mkDay 0 1 3 5].filter fun r => r.weathersit = 1) Row.cnt))
        ∈ weatherAvg [mkDay 0 1 3 5]) :=
  ⟨by decide, (weatherAvg_spec [mkDay 0 1 3 5]).2.2.1 1 (by decide)⟩

/-- C9: the per-category breakdown (modelled from the spec on top of the
declared order list from the source) lists its rows in the declared display
order `Ideal, Good, Moderate, Poor` regardless of the data, every classifier
output lies in the declared list, and a category absent from the data still
appears, with zero-filled statistics. -/
theorem displayByCategory_spec (df : List Row) :
    ((displayByCategory df).map Prod.fst = categoryOrders) ∧
    (∀ r : Row, categorize r ∈ categoryOrders) ∧
    (∀ c : WeatherCategory, c ∉ df.map categorize →
      (c, 0, 0, 0) ∈ displayByCategory df) := by
  refine ⟨?_, ?_, ?_⟩
  · unfold displayByCategory
    rw [List.map_map]
    exact List.map_id _
  · intro r
    cases h : categorize r <;> simp [categoryOrders]
  · intro c hc
    have hfilter : df.filter (fun r => categorize r = c) = [] := by
      rw [List.filter_eq_nil_iff]
      intro r hr
      simp only [decide_eq_true_eq]
      intro he
      exact hc (List.mem_map.mpr ⟨r, hr, he⟩)
    have hcmem : c ∈ categoryOrders := by cases c <;> simp [categoryOrders]
    refine List.mem_map.mpr ⟨c, hcmem, ?_⟩
    rw [hfilter]
    rfl

/-- Witness for C9: on the empty filtered dataset, the category `Ideal` is
absent from the data yet appears in the breakdown with zero statistics. -/
theorem displayByCategory_spec_witness :
    (WeatherCategory.Ideal ∉ ([] : List Row).map categorize) ∧
    (WeatherCategory.Ideal, 0, 0, 0) ∈ displayByCategory [] :=
  ⟨by simp, (displayByCategory_spec []).2.2 .Ideal (by simp)⟩

end BikeRental
